import Mathlib

/-!
Verification of the multi-source stock reconciliation pipeline in `src/main.py`.

The pipeline part of `main.py` (everything between the CSV downloads and the
final CSV write) is shallowly embedded here:

* a pandas `DataFrame` becomes `Table`: a header of named columns (each with
  its pandas dtype abstracted to the flag `isNumeric`, i.e. `dtype != object`)
  plus a list of rows of `Cell`s; numeric cell values are modelled as `ℚ`,
  missing values as `Cell.nan`;
* `norm`, `top100_by_rank_or_col`, `identify_key`, the key-set intersection
  (`commonKeys`, from lines 88-92), `build_common_df`, `fetch_pe` and the
  enrichment loop (lines 163-177) are translated function by function;
* the external `yfinance` lookup (`yf.Ticker(t).info`) is a parameter
  `Lookup : String → Except String Info`: for each ticker string it either
  raises (`Except.error`, any exception in the `try` block) or yields the
  `info` mapping, of which exactly the five fields read by `fetch_pe` are kept;
* Python `str.strip`, `str.lower`, string ordering and `pd.to_numeric` are
  re-implemented over the character list of a `String` so that every
  definition evaluates inside the kernel (`String.trim` etc. do not reduce);
* the final `common_df.sort_values(by='pe', na_position='last')` (line 178)
  sorts with the pandas *default* sort kind, which the library documents as
  not stable; it is therefore modelled relationally (`admissibleOrder`):
  missing keys go last in their original relative order (as pandas' `nargsort`
  places them), while the non-missing keys are arranged by *some* ascending
  order whose tie-breaking is unspecified.

Sorts appearing *inside* `top100_by_rank_or_col` are determinised with a
stable insertion sort; no theorem below about that function depends on the
order of rows with equal sort keys, so the determinisation is harmless there.
-/

namespace StockMarket

/-! ### Python string primitives, kernel-computable -/

/-- Python `str.strip()` on the character list: drop whitespace on both ends. -/
def stripChars (l : List Char) : List Char :=
  ((l.dropWhile Char.isWhitespace).reverse.dropWhile Char.isWhitespace).reverse

/-- Python `s.strip()`. -/
def pyStrip (s : String) : String := String.mk (stripChars s.data)

/-- Python `s.lower()` (ASCII, which is all the pipeline compares). -/
def pyLower (s : String) : String := String.mk (s.data.map Char.toLower)

/-- Lexicographic comparison of character lists by code point,
as Python compares strings. -/
def charListLt : List Char → List Char → Bool
  | [], [] => false
  | [], _ :: _ => true
  | _ :: _, [] => false
  | a :: as, b :: bs =>
    if a.val < b.val then true
    else if b.val < a.val then false
    else charListLt as bs

/-- Python `a <= b` on strings. -/
def pyStrLe (a b : String) : Bool := !(charListLt b.data a.data)

/-- Numeric value of a digit list (no leading-sign or decimal-point support;
the only strings `pd.to_numeric` meets here are plain rank numerals). -/
def parseDigits (l : List Char) : Nat :=
  l.foldl (fun n c => n * 10 + (c.toNat - 48)) 0

/-! ### The data model: pandas DataFrames as tables of cells -/

/-- One cell of a DataFrame: a string, a numeric value, or missing (`NaN`). -/
inductive Cell where
  | str (s : String)
  | num (q : ℚ)
  | nan
deriving DecidableEq

/-- A column: its header label and whether its pandas dtype is numeric
(`df[c].dtype != object`). -/
structure Col where
  name : String
  isNumeric : Bool
deriving DecidableEq

/-- A DataFrame: ordered columns and rows (each row lists its cells in
column order). -/
structure Table where
  header : List Col
  rows : List (List Cell)
deriving DecidableEq

/-- Header labels in column order. -/
def colNames (t : Table) : List String := t.header.map Col.name

/-- Index of the column with exactly the label `c` (pandas `df[c]`;
with duplicate labels the source would not get a Series, we take the first). -/
def colIdx (t : Table) (c : String) : Option Nat :=
  t.header.findIdx? (fun h => h.name == c)

/-- Cell of row `r` in column `i`. -/
def cellAt (r : List Cell) (i : Nat) : Cell := r.getD i Cell.nan

/-- Python `str()` of a cell, as `.astype(str)` applies it.  Every claim
below exercises it on string cells only; the rendering of a numeric cell is
abbreviated (Python would print e.g. `100.0`), `NaN` prints as `"nan"`. -/
def cellStr : Cell → String
  | .str s => s
  | .num q => "float:" ++ toString q.num
  | .nan => "nan"

/-- Numeric reading of a cell of a numeric-dtype column. -/
def cellNum : Cell → Option ℚ
  | .num q => some q
  | _ => none

/-- `pd.to_numeric(_, errors='coerce')` on one cell: numbers pass through,
`NaN` stays missing, strings parse when they are plain numerals and coerce
to missing otherwise. -/
def pyToNumeric : Cell → Option ℚ
  | .num q => some q
  | .nan => none
  | .str s =>
    let t := stripChars s.data
    if t ≠ [] ∧ t.all Char.isDigit then some ((parseDigits t : Nat) : ℚ) else none

/-! ### Sorting helpers -/

/-- A Bool comparator as a decidable relation, for `List.insertionSort`. -/
def boolRel {α : Type} (f : α → α → Bool) : α → α → Prop := fun a b => f a b = true

instance boolRelDec {α : Type} (f : α → α → Bool) : DecidableRel (boolRel f) :=
  fun a b => Bool.decEq (f a b) true

/-- Stable sort by a Bool comparator (determinisation of the library sorts
inside the selector; see the header note). -/
def sortBy {α : Type} (f : α → α → Bool) (l : List α) : List α :=
  List.insertionSort (boolRel f) l

/-- Ascending order on optional keys with missing keys last
(`na_position='last'`, the pandas default used throughout). -/
def noneLastLe : Option ℚ → Option ℚ → Bool
  | none, none => true
  | none, some _ => false
  | some _, none => true
  | some x, some y => decide (x ≤ y)

/-- Descending order on optional keys with missing keys last
(`ascending=False`, `na_position='last'`). -/
def noneLastGe : Option ℚ → Option ℚ → Bool
  | none, none => true
  | none, some _ => false
  | some _, none => true
  | some x, some y => decide (y ≤ x)

/-! ### `norm` (main.py lines 39-45): strip the header labels -/

/-- `def norm(df): df.columns = [c.strip() for c in df.columns]; return df` —
the comment above it promises lowercasing "for robustness" but the code only
strips whitespace. -/
def norm (t : Table) : Table :=
  ⟨t.header.map (fun h => ⟨pyStrip h.name, h.isNumeric⟩), t.rows⟩

/-! ### `top100_by_rank_or_col` (main.py lines 48-63) -/

/-- The country filter of line 50:
`df['country'].str.strip().str.lower() == country_name.lower()`.
A non-string cell never matches (the pandas `.str` accessor yields `NaN`
there, and `NaN == x` is false). -/
def countryMatches (c : Cell) (target : String) : Bool :=
  match c with
  | .str s => pyLower (pyStrip s) == pyLower target
  | _ => false

/-- `top100_by_rank_or_col(df, country_col='country', country_name='India', ...)`.
The `country_col` and `rank_col_candidates` parameters of the source are
unused by its body (line 50 hardcodes `df['country']`); `country_name`
defaults to `"India"` at both call sites.  Line 50 can raise twice over,
both modelled by `Except.error`: `df['country']` raises `KeyError` when no
column is labelled exactly `country`, and the `.str` accessor on the
resulting Series raises `AttributeError` when that column's dtype is
numeric rather than object (as e.g. an all-empty CSV column, parsed as
float64, is); only on an object-dtype column does `.str.strip()` proceed,
turning non-string entries into `NaN`, which then simply fail the
comparison (`countryMatches`).
Then: the first column whose lowered, stripped label is `rank` is sorted
ascending by `pd.to_numeric` (missing last); else the first numeric-dtype
column is sorted descending (missing last); else original order; each branch
takes `head(100)` and the function returns another `head(100)` of it. -/
def top100_by_rank_or_col (df : Table) (country_name : String) : Except String Table :=
  match colIdx df "country" with
  | none => Except.error "KeyError: country"
  | some ci =>
    if (df.header.getD ci ⟨"", false⟩).isNumeric then
      Except.error "AttributeError: Can only use .str accessor with string values"
    else
    let dfc : Table := ⟨df.header, df.rows.filter (fun r => countryMatches (cellAt r ci) country_name)⟩
    match dfc.header.findIdx? (fun h => pyStrip (pyLower h.name) == "rank") with
    | some ri =>
      let sorted := sortBy (fun r1 r2 => noneLastLe (pyToNumeric (cellAt r1 ri)) (pyToNumeric (cellAt r2 ri))) dfc.rows
      Except.ok ⟨dfc.header, (sorted.take 100).take 100⟩
    | none =>
      match dfc.header.findIdx? (fun h => h.isNumeric) with
      | some ni =>
        let sorted := sortBy (fun r1 r2 => noneLastGe (cellNum (cellAt r1 ni)) (cellNum (cellAt r2 ni))) dfc.rows
        Except.ok ⟨dfc.header, (sorted.take 100).take 100⟩
      | none => Except.ok ⟨dfc.header, (dfc.rows.take 100).take 100⟩

/-! ### `identify_key` and the intersection (main.py lines 76-92) -/

/-- `identify_key(df)`: the first of `Symbol, symbol, SYMBOL, Ticker, ticker`
present among the column labels (exact match), else `Name` when present,
else silently the first column; `none` models the `IndexError` that
`df.columns[0]` raises on a table with no columns at all. -/
def identify_key (df : Table) : Option String :=
  match ["Symbol", "symbol", "SYMBOL", "Ticker", "ticker"].find? (fun c => (colNames df).contains c) with
  | some c => some c
  | none => if (colNames df).contains "Name" then some "Name" else (colNames df).head?

/-- `set(df[k].astype(str).str.strip())` for `k = identify_key(df)`,
kept as the list of stripped strings (the set semantics enter through
membership and through `dedup` below). -/
def keyStrings (df : Table) : List String :=
  match identify_key df with
  | none => []
  | some k =>
    match colIdx df k with
    | none => []
    | some i => df.rows.map (fun r => pyStrip (cellStr (cellAt r i)))

/-- `common = sorted(list(s1 & s2 & s3))` (line 92): the distinct key strings
present in all three tables, sorted by Python string order. -/
def commonKeys (t1 t2 t3 : Table) : List String :=
  sortBy pyStrLe (((keyStrings t1).filter
    (fun x => (keyStrings t2).contains x && (keyStrings t3).contains x)).dedup)

/-! ### `build_common_df` (main.py lines 97-141) -/

/-- One row of `common_df`: the `symbol` entry is always set by the source
(to `''` in its fallback branch), the `name` entry is left unset — pandas
`NaN`, here `none` — when no table resolves it. -/
structure CommonRow where
  symbol : String
  name : Option String
deriving DecidableEq

/-- `to_small`'s symbol column choice: the first column whose lowered label
is `symbol` or `ticker`. -/
def symIdx (t : Table) : Option Nat :=
  t.header.findIdx? (fun h => pyLower h.name == "symbol" || pyLower h.name == "ticker")

/-- `to_small`'s name column choice: the first column whose lowered label
is `name`. -/
def nameIdx (t : Table) : Option Nat :=
  t.header.findIdx? (fun h => pyLower h.name == "name")

/-- The `(__sym__, __name__)` pair `to_small` attaches to one row:
`str()` of the symbol/name cell, or `""` when the table lacks the column. -/
def smallRow (t : Table) (r : List Cell) : String × String :=
  ((symIdx t).elim "" (fun i => cellStr (cellAt r i)),
   (nameIdx t).elim "" (fun i => cellStr (cellAt r i)))

/-- All `(__sym__, __name__)` pairs of a table, in row order. -/
def smallRows (t : Table) : List (String × String) := t.rows.map (smallRow t)

/-- `df[df['__sym__'].str.strip()==sym]` and `matched.iloc[0]['__name__']`:
the name of the first row whose stripped `__sym__` equals `sym`. -/
def findNameIn (t : Table) (sym : String) : Option String :=
  ((smallRows t).find? (fun p => pyStrip p.1 == sym)).map Prod.snd

/-- The `for df in (a,b,c): ... break` search of lines 128-132: the first
table in the fixed order (marketcap, revenue, earnings) holding a row whose
stripped `__sym__` equals `sym` supplies the name. -/
def firstNameFor (t1 t2 t3 : Table) (sym : String) : Option String :=
  match findNameIn t1 sym with
  | some n => some n
  | none =>
    match findNameIn t2 sym with
    | some n => some n
    | none => findNameIn t3 sym

/-- `build_common_df()` (lines 97-139).  With some non-blank common key:
one row per non-blank key, carrying that key as the `symbol` and the
`firstNameFor`-resolved name.  Otherwise the fallback of lines 136-139:
one row per key with `symbol=''` and the key as the name. -/
def build_common_df (t1 t2 t3 : Table) : List CommonRow :=
  let common := commonKeys t1 t2 t3
  let common_syms := common.filter (fun x => !(pyStrip x == ""))
  if common_syms.isEmpty then
    common.map (fun n => ⟨"", some n⟩)
  else
    common_syms.map (fun sym => ⟨sym, firstNameFor t1 t2 t3 sym⟩)

/-! ### `fetch_pe` and the enrichment loop (main.py lines 146-177) -/

/-- The fields of `yf.Ticker(t).info` that `fetch_pe` reads; a field absent
from the mapping (`info.get(...) is None`) is `none`. -/
structure Info where
  trailingPE : Option ℚ
  priceToEarnings : Option ℚ
  trailingPegRatio : Option ℚ
  regularMarketPrice : Option ℚ
  epsTrailingTwelveMonths : Option ℚ
deriving DecidableEq

/-- The external lookup: ticker string to either an exception
(`Except.error`, caught by `fetch_pe`'s `try`) or the info mapping. -/
def Lookup : Type := String → Except String Info

/-- Python `a or b` on optional floats: `a` unless it is falsy
(`None` or `0.0`). -/
def pyOr (a b : Option ℚ) : Option ℚ :=
  match a with
  | some x => if x = 0 then b else some x
  | none => b

/-- Python truthiness of an optional float (`if price and eps`). -/
def pyTruthy : Option ℚ → Bool
  | none => false
  | some x => decide (x ≠ 0)

/-- `fetch_pe(ticker)` (lines 146-161): one single lookup at the stripped
ticker; on an exception return `None`; otherwise chain
`trailingPE or trailingPE or priceToEarnings or trailingPegRatio` by Python
truthiness, and if that leaves `None`, derive
`regularMarketPrice / epsTrailingTwelveMonths` when both are truthy.
There is no second, suffixed lookup anywhere in the function. -/
def fetch_pe (lookup : Lookup) (ticker : String) : Option ℚ :=
  match lookup (pyStrip ticker) with
  | .error _ => none
  | .ok info =>
    let pe := pyOr (pyOr (pyOr info.trailingPE info.trailingPE) info.priceToEarnings)
      info.trailingPegRatio
    match pe with
    | some v => some v
    | none =>
      match info.regularMarketPrice, info.epsTrailingTwelveMonths with
      | some price, some eps =>
        if price ≠ 0 ∧ eps ≠ 0 then
          (if eps ≠ 0 then some (price / eps) else none)
        else none
      | _, _ => none

/-- Result of the per-row body of the enrichment loop (lines 165-175),
instrumented with the number of external lookups it performs so that
"no external call" is a provable statement. -/
structure FetchOutcome where
  pe : Option ℚ
  calls : Nat
deriving DecidableEq

/-- The body of the loop for one `common_df` row: a row with a blank
(stripped) symbol gets `pe = None` and no lookup at all; otherwise one
`fetch_pe` call on the stripped symbol.  (The loop also strips the row's
name into an unused local; on a row whose name entry is `NaN` while other
rows set one the source would raise there — orthogonal to every claim
below, which either fixes the name to a string or concerns fields the loop
never writes.) -/
def enrich_row (lookup : Lookup) (r : CommonRow) : FetchOutcome :=
  let sym := pyStrip r.symbol
  if sym = "" then ⟨none, 0⟩ else ⟨fetch_pe lookup sym, 1⟩

/-- A `common_df` row after `common_df['pe'] = pes`: identity fields plus
the looked-up ratio. -/
structure EnrichedRow where
  symbol : String
  name : Option String
  pe : Option ℚ
deriving DecidableEq

/-- The whole enrichment pass: the `pes` list is built row by row in row
order and attached as the `pe` column (lines 164-177). -/
def add_pe (lookup : Lookup) (rows : List CommonRow) : List EnrichedRow :=
  rows.map (fun r => ⟨r.symbol, r.name, (enrich_row lookup r).pe⟩)

/-! ### The report sort (main.py line 178)

`common_df.sort_values(by='pe', na_position='last')` computes, as pandas
`nargsort` does, an indexer: the positions of the non-missing keys arranged
ascending by key, followed by the positions of the missing keys in their
original order.  The arrangement of the non-missing part comes from the
default sort kind, whose tie order the library leaves unspecified (it is
documented as not stable), so it is modelled as *any* ascending arrangement:
the relation `admissibleOrder` below.  Positions are carried as `(index,
row)` pairs from `List.enum`. -/

/-- The enumerated rows whose `pe` is missing, in original order: pandas
appends exactly these after the sorted non-missing block. -/
def nanPairs (rows : List EnrichedRow) : List (Nat × EnrichedRow) :=
  rows.enum.filter (fun p => p.2.pe.isNone)

/-- The enumerated rows whose `pe` is present, in original order. -/
def presentPairs (rows : List EnrichedRow) : List (Nat × EnrichedRow) :=
  rows.enum.filter (fun p => !p.2.pe.isNone)

/-- Comparator on enumerated rows by their `pe` key (only applied where both
keys are present; `getD` supplies a dummy for totality). -/
def keyLeB (a b : Nat × EnrichedRow) : Bool :=
  decide (a.2.pe.getD 0 ≤ b.2.pe.getD 0)

/-- `ps` is a possible arrangement of the non-missing block: a permutation
of the present pairs that is ascending by key. -/
def admissibleOrder (rows : List EnrichedRow) (ps : List (Nat × EnrichedRow)) : Prop :=
  ps.Perm (presentPairs rows) ∧ ps.Pairwise (boolRel keyLeB)

/-- The rows the sorted report lists, for the arrangement `ps`. -/
def reportRows (rows : List EnrichedRow) (ps : List (Nat × EnrichedRow)) : List EnrichedRow :=
  (ps ++ nanPairs rows).map Prod.snd

/-- The stability property the specification asserts of the report: any two
rows with equal ratios (missing included) stay in input order, i.e. their
original indices increase along the report. -/
def keepsInputOrder (rows : List EnrichedRow) (ps : List (Nat × EnrichedRow)) : Prop :=
  (ps ++ nanPairs rows).Pairwise (boolRel (fun a b => !(decide (a.2.pe = b.2.pe)) || decide (a.1 ≤ b.1)))

/-- Ascending order on ratios with missing strictly greater than every
numeric value, as the specification orders the report. -/
def peLe : Option ℚ → Option ℚ → Prop
  | some x, some y => x ≤ y
  | some _, none => True
  | none, none => True
  | none, some _ => False

/-! ### Decidability plumbing for concrete evaluation -/

instance exceptDecEq {ε α : Type} [DecidableEq ε] [DecidableEq α] : DecidableEq (Except ε α) :=
  fun a b =>
    match a, b with
    | .error e, .error f => by
        cases decEq e f with
        | isTrue h => exact isTrue (by rw [h])
        | isFalse h => exact isFalse (by intro hc; cases hc; exact h rfl)
    | .error _, .ok _ => isFalse (by intro hc; cases hc)
    | .ok _, .error _ => isFalse (by intro hc; cases hc)
    | .ok x, .ok y => by
        cases decEq x y with
        | isTrue h => exact isTrue (by rw [h])
        | isFalse h => exact isFalse (by intro hc; cases hc; exact h rfl)

instance admissibleOrderDec (rows : List EnrichedRow) (ps : List (Nat × EnrichedRow)) :
    Decidable (admissibleOrder rows ps) := by
  unfold admissibleOrder; infer_instance

instance keepsInputOrderDec (rows : List EnrichedRow) (ps : List (Nat × EnrichedRow)) :
    Decidable (keepsInputOrder rows ps) := by
  unfold keepsInputOrder; infer_instance

/-! ### Shared helper lemmas -/

theorem mem_sortBy {α : Type} {f : α → α → Bool} {l : List α} {a : α} :
    a ∈ sortBy f l ↔ a ∈ l :=
  List.mem_insertionSort _

theorem commonKeys_mem_aux (t1 t2 t3 : Table) (x : String) :
    x ∈ commonKeys t1 t2 t3 ↔
      x ∈ keyStrings t1 ∧ x ∈ keyStrings t2 ∧ x ∈ keyStrings t3 := by
  unfold commonKeys
  rw [mem_sortBy, List.mem_dedup, List.mem_filter]
  simp [and_assoc]

/-- Rows of a successful selector output, traced back to the input table:
every branch of `top100_by_rank_or_col` ends in `take`s of a sort (or of
nothing) applied to the country-filtered rows. -/
theorem top100_rows_from_filter (t : Table) (cn : String) (ci : Nat) (out : Table)
    (hci : colIdx t "country" = some ci)
    (h : top100_by_rank_or_col t cn = .ok out) :
    ∀ r ∈ out.rows, r ∈ t.rows ∧ countryMatches (cellAt r ci) cn = true := by
  unfold top100_by_rank_or_col at h
  rw [hci] at h
  intro r hr
  have key : r ∈ t.rows.filter (fun r => countryMatches (cellAt r ci) cn) := by
    dsimp only at h
    split at h
    · cases h
    · split at h
      · cases h
        exact mem_sortBy.mp (List.mem_of_mem_take (List.mem_of_mem_take hr))
      · split at h
        · cases h
          exact mem_sortBy.mp (List.mem_of_mem_take (List.mem_of_mem_take hr))
        · cases h
          exact List.mem_of_mem_take (List.mem_of_mem_take hr)
  exact ⟨(List.mem_filter.mp key).1, (List.mem_filter.mp key).2⟩

/-! ### Claim-side predicate for the intersection (spec wording)

The specification says membership in the intersection is decided "from
names alone", comparing "case-insensitive, trimmed".  `appearsCI t x` is
that predicate: some value of `t`'s name column (located case-insensitively,
as the spec's Normalizer does) equals `x` after stripping and lowering. -/

/-- The name-column strings of a table (empty when no name column). -/
def nameStrings (t : Table) : List String :=
  match nameIdx t with
  | some i => t.rows.map (fun r => cellStr (cellAt r i))
  | none => []

/-- The spec's membership test: `x` appears, case-insensitively and
trimmed, among the table's names. -/
def appearsCI (t : Table) (x : String) : Bool :=
  (nameStrings t).any (fun n => pyLower (pyStrip n) == pyLower (pyStrip x))

/-! ### C1 — intersection membership -/

def nmACME : Table := ⟨[⟨"Name", false⟩], [[Cell.str "ACME"]]⟩
def nmacme : Table := ⟨[⟨"Name", false⟩], [[Cell.str "acme"]]⟩
def nmAcme : Table := ⟨[⟨"Name", false⟩], [[Cell.str "Acme"]]⟩
def symAcme : Table := ⟨[⟨"Name", false⟩, ⟨"Symbol", false⟩], [[Cell.str "Acme", Cell.str "ACM"]]⟩

/-- C1 (counterexample): the claim "a name appears in the output iff it
appears case-insensitively and trimmed in all three tables, computed from
names alone" fails twice over.  With name tables `ACME` / `acme` / `acme`,
the name `acme` appears case-insensitively in all three yet the code's
intersection is empty (its comparison is case-sensitive).  And when the
marketcap table also has a `Symbol` column, `Acme` appears verbatim in all
three name columns yet is again not in the output (that table's key strings
are its symbols, not its names). -/
theorem c1_intersection_cex :
    (appearsCI nmACME "acme" = true ∧ appearsCI nmacme "acme" = true ∧
      "acme" ∉ commonKeys nmACME nmacme nmacme) ∧
    (appearsCI symAcme "Acme" = true ∧ appearsCI nmAcme "Acme" = true ∧
      "Acme" ∉ commonKeys symAcme nmAcme nmAcme) := by
  decide

/-- C1 (amended): a string is in the Intersection Resolver's output iff it
is, after stripping only (case-sensitively), among the key strings of all
three tables — where a table's key column is the first of
`Symbol`/`symbol`/`SYMBOL`/`Ticker`/`ticker` present, else `Name`, else its
first column; so membership is computed from per-table keys, which are
symbols rather than names whenever a symbol column exists. -/
theorem c1_intersection_amended (t1 t2 t3 : Table) (x : String) :
    x ∈ commonKeys t1 t2 t3 ↔
      x ∈ keyStrings t1 ∧ x ∈ keyStrings t2 ∧ x ∈ keyStrings t3 :=
  commonKeys_mem_aux t1 t2 t3 x

/-! ### C5 — missing identity column -/

def noNameTable : Table := ⟨[⟨"cap", false⟩, ⟨"price", false⟩], [[Cell.str "X", Cell.str "1"]]⟩

/-- C5 (counterexample): on a source with no name-equivalent column at all
(columns `cap`, `price`), nothing fails: normalization returns the table,
`identify_key` silently substitutes the first column `cap` as the identity,
and the pipeline happily intersects on its values. -/
theorem c5_schema_cex :
    norm noNameTable = noNameTable ∧
    identify_key noNameTable = some "cap" ∧
    commonKeys noNameTable noNameTable noNameTable = ["X"] := by
  decide

/-- C5 (amended): no `SchemaError` exists anywhere in the code.  `norm` only
strips header whitespace and never fails, and on a table with none of the
symbol-column candidates and no exact-case `Name` column, `identify_key`
silently falls back to the first column as the identity and the run
continues.  (Note the code's `Name` test is exact-case, not the spec's
case-insensitive location.) -/
theorem c5_schema_amended (t : Table)
    (h1 : ∀ c ∈ ["Symbol", "symbol", "SYMBOL", "Ticker", "ticker"], (colNames t).contains c = false)
    (h2 : (colNames t).contains "Name" = false) :
    identify_key t = (colNames t).head? ∧ (norm t).rows = t.rows := by
  constructor
  · unfold identify_key
    have hfind : ["Symbol", "symbol", "SYMBOL", "Ticker", "ticker"].find?
        (fun c => (colNames t).contains c) = none := by
      rw [List.find?_eq_none]
      intro c hc
      rw [h1 c hc]
      exact Bool.false_ne_true
    rw [hfind, h2]
    simp
  · rfl

theorem c5_schema_amended_witness :
    identify_key noNameTable = (colNames noNameTable).head? ∧
    (norm noNameTable).rows = noNameTable.rows :=
  c5_schema_amended noNameTable (by decide) (by decide)

/-! ### C8 — the country filter -/

def noCountryTable : Table := ⟨[⟨"Name", false⟩], [[Cell.str "Acme"]]⟩

/-- C8 (counterexample): the claim says the selector succeeds and retains
all records when the table has no country column; in fact `df['country']`
raises a `KeyError` and nothing is retained. -/
theorem c8_country_cex :
    top100_by_rank_or_col noCountryTable "India" = .error "KeyError: country" := by
  decide

/-- C8 (amended): the selector requires a column labelled exactly `country`
(after header stripping) *of object dtype*.  Without such a column it
raises a `KeyError` instead of retaining all records; with a numeric-dtype
`country` column (e.g. an all-empty CSV column, which pandas parses as
float64) the `.str` accessor raises an `AttributeError`.  Only when an
object-dtype `country` column is present does the selector succeed, and
then every retained record's country cell matches the target after
stripping, case-insensitively (`countryMatches`). -/
theorem c8_country_amended (t : Table) (cn : String) :
    (colIdx t "country" = none →
      top100_by_rank_or_col t cn = .error "KeyError: country")
    ∧ (∀ i, colIdx t "country" = some i →
        (t.header.getD i ⟨"", false⟩).isNumeric = true →
          top100_by_rank_or_col t cn =
            .error "AttributeError: Can only use .str accessor with string values")
    ∧ (∀ i, colIdx t "country" = some i →
        (t.header.getD i ⟨"", false⟩).isNumeric = false →
          ∃ out, top100_by_rank_or_col t cn = .ok out ∧
            ∀ r ∈ out.rows, countryMatches (cellAt r i) cn = true) := by
  refine ⟨?_, ?_, ?_⟩
  · intro hnone
    unfold top100_by_rank_or_col
    rw [hnone]
  · intro i hi hnum
    unfold top100_by_rank_or_col
    rw [hi]
    dsimp only
    rw [if_pos hnum]
  · intro i hi hobj
    have hok : ∃ out, top100_by_rank_or_col t cn = .ok out := by
      unfold top100_by_rank_or_col
      rw [hi]
      dsimp only
      rw [if_neg (by rw [hobj]; exact Bool.false_ne_true)]
      split
      · exact ⟨_, rfl⟩
      · split
        · exact ⟨_, rfl⟩
        · exact ⟨_, rfl⟩
    obtain ⟨out, hout⟩ := hok
    exact ⟨out, hout, fun r hr => (top100_rows_from_filter t cn i out hi hout r hr).2⟩

def indiaTable : Table :=
  ⟨[⟨"Name", false⟩, ⟨"country", false⟩],
   [[Cell.str "A", Cell.str " INDIA "], [Cell.str "B", Cell.str "US"], [Cell.str "C", Cell.nan]]⟩

theorem c8_country_amended_witness :
    ∃ out, top100_by_rank_or_col indiaTable "India" = .ok out ∧
      ∀ r ∈ out.rows, countryMatches (cellAt r 1) "India" = true :=
  (c8_country_amended indiaTable "India").2.2 1 (by decide) (by decide)

/-! ### C9 — selector bound and subset -/

/-- C9: whenever the Ranking Selector succeeds, it returns at most 100
records (the `N` the code fixes: every branch truncates with `head(100)`),
and every returned record is one of the input table's rows. -/
theorem c9_selector_bound (t : Table) (cn : String) (out : Table)
    (h : top100_by_rank_or_col t cn = .ok out) :
    out.rows.length ≤ 100 ∧ ∀ r ∈ out.rows, r ∈ t.rows := by
  have hci : ∃ ci, colIdx t "country" = some ci := by
    unfold top100_by_rank_or_col at h
    cases hc : colIdx t "country" with
    | none => rw [hc] at h; cases h
    | some ci => exact ⟨ci, rfl⟩
  obtain ⟨ci, hc⟩ := hci
  refine ⟨?_, fun r hr => (top100_rows_from_filter t cn ci out hc h r hr).1⟩
  unfold top100_by_rank_or_col at h
  rw [hc] at h
  dsimp only at h
  split at h
  · cases h
  · split at h
    · cases h
      exact le_trans (Nat.le_of_eq (List.length_take _ _)) (Nat.min_le_left _ _)
    · split at h
      · cases h
        exact le_trans (Nat.le_of_eq (List.length_take _ _)) (Nat.min_le_left _ _)
      · cases h
        exact le_trans (Nat.le_of_eq (List.length_take _ _)) (Nat.min_le_left _ _)

def w9in : Table := ⟨[⟨"country", false⟩], [[Cell.str "India"]]⟩
def w9out : Table := ⟨[⟨"country", false⟩], [[Cell.str "India"]]⟩

theorem c9_selector_bound_witness :
    w9out.rows.length ≤ 100 ∧ ∀ r ∈ w9out.rows, r ∈ w9in.rows :=
  c9_selector_bound w9in "India" w9out (by decide)

/-! ### C2 — what `build_common_df` puts in `symbol` and `name` -/

def nmAcmeOnly : Table := ⟨[⟨"Name", false⟩], [[Cell.str "Acme"]]⟩

/-- C2 (counterexample): three name-only tables each containing `Acme`.
No table has any symbol column (`symIdx = none`, the per-table keys come
from `Name`), so the claimed search for "the first non-null symbol in order
marketcap, revenue, earnings" finds nothing and the ResolvedCompany should
carry a null symbol and the name `Acme`.  The code instead stores the
intersection key itself as the symbol — the row comes out as
`symbol = "Acme"`, with its `name` entry unset. -/
theorem c2_symbol_cex :
    symIdx nmAcmeOnly = none ∧
    identify_key nmAcmeOnly = some "Name" ∧
    build_common_df nmAcmeOnly nmAcmeOnly nmAcmeOnly = [⟨"Acme", none⟩] := by
  decide

/-- C2 (amended): for every row the resolver emits with a non-blank symbol,
that symbol is not the result of any priority search — it is the
intersection key itself (hence present among all three tables' key
strings); what *is* resolved by searching the tables in the fixed order
(marketcap, revenue, earnings) is the row's `name`, taken from the first
table with a row whose stripped `__sym__` equals the key; in particular a
marketcap match wins. -/
theorem c2_symbol_amended (t1 t2 t3 : Table) (r : CommonRow)
    (hr : r ∈ build_common_df t1 t2 t3) (hs : pyStrip r.symbol ≠ "") :
    (r.symbol ∈ keyStrings t1 ∧ r.symbol ∈ keyStrings t2 ∧ r.symbol ∈ keyStrings t3)
    ∧ r.name = firstNameFor t1 t2 t3 r.symbol
    ∧ (∀ n, findNameIn t1 r.symbol = some n → r.name = some n) := by
  unfold build_common_df at hr
  by_cases he : ((commonKeys t1 t2 t3).filter (fun x => !(pyStrip x == ""))).isEmpty
  · rw [if_pos he] at hr
    obtain ⟨n, _, hn⟩ := List.mem_map.mp hr
    have hsym : r.symbol = "" := by rw [← hn]
    exact absurd (by rw [hsym]; rfl) hs
  · rw [if_neg he] at hr
    obtain ⟨sym, hsymmem, hn⟩ := List.mem_map.mp hr
    have hkey : sym ∈ commonKeys t1 t2 t3 := (List.mem_filter.mp hsymmem).1
    have hrsym : r.symbol = sym := by rw [← hn]
    subst hrsym
    have hks := (commonKeys_mem_aux t1 t2 t3 r.symbol).mp hkey
    have hname : r.name = firstNameFor t1 t2 t3 r.symbol := by rw [← hn]
    refine ⟨hks, hname, fun n hfind => ?_⟩
    rw [hname]
    unfold firstNameFor
    rw [hfind]

def mcTable : Table :=
  ⟨[⟨"Name", false⟩, ⟨"Symbol", false⟩], [[Cell.str "Acme MC", Cell.str "ACM"]]⟩
def revTable : Table :=
  ⟨[⟨"Name", false⟩, ⟨"Symbol", false⟩], [[Cell.str "Acme Rev", Cell.str "ACM"]]⟩
def earnTable : Table :=
  ⟨[⟨"Name", false⟩, ⟨"Symbol", false⟩], [[Cell.str "Acme Earn", Cell.str "ACM"]]⟩

theorem c2_symbol_amended_witness :
    (("ACM" : String) ∈ keyStrings mcTable ∧ ("ACM" : String) ∈ keyStrings revTable ∧
      ("ACM" : String) ∈ keyStrings earnTable)
    ∧ (some "Acme MC" : Option String) = firstNameFor mcTable revTable earnTable "ACM"
    ∧ (∀ n, findNameIn mcTable "ACM" = some n → (some "Acme MC" : Option String) = some n) :=
  c2_symbol_amended mcTable revTable earnTable ⟨"ACM", some "Acme MC"⟩ (by decide) (by decide)

/-! ### C3 — no second, suffixed lookup exists -/

def infoAbsent : Info := ⟨none, none, none, none, none⟩

/-- 28.4, the ratio the spec's fallback example expects. -/
def q284 : ℚ := ⟨142, 5, by decide, by decide⟩

/-- A lookup world exactly as in the spec's fallback scenario: the plain
symbol `TCS` yields an info mapping with no usable ratio at all, while the
suffixed `TCS.NS` yields trailing P/E 28.4. -/
def lookupTCS : Lookup := fun s =>
  if s == "TCS.NS" then .ok ⟨some q284, none, none, none, none⟩ else .ok infoAbsent

/-- C3 (counterexample): `TCS` is non-empty and purely alphabetic and its
primary lookup yields no usable ratio, so per the claim the fetcher should
retry with the market-suffixed symbol and adopt its 28.4.  The suffixed
lookup would indeed return 28.4 — but `fetch_pe` performs no such second
lookup and returns `None`. -/
theorem c3_fallback_cex :
    ("TCS".data.all Char.isAlpha = true ∧ "TCS" ≠ "") ∧
    fetch_pe lookupTCS "TCS.NS" = some q284 ∧
    fetch_pe lookupTCS "TCS" = none := by
  decide

/-- C3 (amended): the fetcher makes exactly one external lookup, at the
stripped symbol as-is: its result depends only on the lookup's value there,
so a differing answer at any suffixed variant (or any other key) can never
influence it; an unusable primary response falls back only to the
price/eps derivation inside that same response, else to `None`. -/
theorem c3_single_lookup_amended (l1 l2 : Lookup) (t : String)
    (h : l1 (pyStrip t) = l2 (pyStrip t)) :
    fetch_pe l1 t = fetch_pe l2 t := by
  unfold fetch_pe
  rw [h]

def lookupNoNS : Lookup := fun _ => .ok infoAbsent

theorem c3_single_lookup_amended_witness :
    fetch_pe lookupTCS "TCS" = fetch_pe lookupNoNS "TCS" :=
  c3_single_lookup_amended lookupTCS lookupNoNS "TCS" (by decide)

/-! ### C6 — blank symbol: null ratio, zero lookups -/

/-- C6: a `common_df` row whose symbol strips to blank (the source's null:
its fallback branch stores `''`) is enriched to a `None` ratio immediately,
with zero external calls made. -/
theorem c6_no_symbol_no_call (lookup : Lookup) (r : CommonRow)
    (h : pyStrip r.symbol = "") :
    enrich_row lookup r = ⟨none, 0⟩ := by
  unfold enrich_row
  rw [if_pos h]

def lookupDown : Lookup := fun _ => .error "HTTPError: unreachable"

theorem c6_no_symbol_no_call_witness :
    enrich_row lookupDown ⟨"  ", some "Acme"⟩ = ⟨none, 0⟩ :=
  c6_no_symbol_no_call lookupDown ⟨"  ", some "Acme"⟩ (by decide)

/-! ### C7 — lookup errors are caught and become null -/

/-- C7: whenever the external lookup raises — any exception at all, the
model of `fetch_pe`'s blanket `except` — the fetcher returns `None` for
that company.  (That `fetch_pe` is a total function into `Option ℚ` is the
embedding of "no lookup error ever propagates": every outcome of the
lookup, error included, is mapped to a plain return value.) -/
theorem c7_error_becomes_null (lookup : Lookup) (t : String) (msg : String)
    (h : lookup (pyStrip t) = .error msg) :
    fetch_pe lookup t = none := by
  unfold fetch_pe
  rw [h]

def lookupTimeout : Lookup := fun _ => .error "ReadTimeout"

theorem c7_error_becomes_null_witness : fetch_pe lookupTimeout "INFY" = none :=
  c7_error_becomes_null lookupTimeout "INFY" "ReadTimeout" (by decide)

/-! ### C10 — enrichment never touches the identity fields -/

/-- C10: the enrichment pass maps each `common_df` row to an output row
with literally the same `symbol` and `name` (the loop only reads the rows
and appends the separately built `pe` column); projecting the identity
fields of the output gives back exactly the input's identity fields, for
every lookup behaviour and every row list. -/
theorem c10_enrichment_identity (lookup : Lookup) (rows : List CommonRow) :
    (add_pe lookup rows).map (fun e => (e.symbol, e.name)) =
      rows.map (fun r => (r.symbol, r.name)) := by
  unfold add_pe
  rw [List.map_map]
  rfl

/-! ### C4 — the report order -/

theorem present_nan_perm (rows : List EnrichedRow) :
    (presentPairs rows ++ nanPairs rows).Perm rows.enum := by
  have h := List.filter_append_perm (fun p : Nat × EnrichedRow => !p.2.pe.isNone) rows.enum
  simpa [presentPairs, nanPairs, Bool.not_not] using h

theorem pe_of_mem_presentPairs {rows : List EnrichedRow} {p : Nat × EnrichedRow}
    (h : p ∈ presentPairs rows) : ∃ x, p.2.pe = some x := by
  have hb := (List.mem_filter.mp h).2
  cases hpe : p.2.pe with
  | none => rw [hpe] at hb; simp [Option.isNone] at hb
  | some x => exact ⟨x, rfl⟩

theorem pe_of_mem_nanPairs {rows : List EnrichedRow} {p : Nat × EnrichedRow}
    (h : p ∈ nanPairs rows) : p.2.pe = none := by
  have hb := (List.mem_filter.mp h).2
  cases hpe : p.2.pe with
  | none => rfl
  | some x => rw [hpe] at hb; simp [Option.isNone] at hb

def twoTieRows : List EnrichedRow :=
  [⟨"A", some "A", some 1⟩, ⟨"B", some "B", some 1⟩]

def twoTieSwap : List (Nat × EnrichedRow) :=
  [(1, ⟨"B", some "B", some 1⟩), (0, ⟨"A", some "A", some 1⟩)]

/-- C4 (counterexample): the claim's stability clause fails on the code.
The report is sorted with the pandas default sort kind, which the library
documents as *not* stable, so on the two-record input `A, B` with equal
ratio 1.0 the reversed arrangement `B, A` is an admissible outcome of the
sort — one that violates `keepsInputOrder`, the claim's requirement that
records with equal ratios keep their input order. -/
theorem c4_stability_cex :
    admissibleOrder twoTieRows twoTieSwap ∧ ¬ keepsInputOrder twoTieRows twoTieSwap := by
  decide

/-- C4 (amended): every admissible outcome of the report sort is a
permutation of the enriched rows, is ascending by `valuation_ratio` with
null ratios strictly after every numeric one (`peLe`), and lists the
null-ratio records in exactly their input order (the claim's example
`[3.1, null, 1.0, null, 2.0] ↦ [C,E,A,B,D]` therefore holds — see the
witness); what is *not* guaranteed is the claim's further clause that
records with equal numeric ratios keep their input order, since the code
leaves the sort kind at the library default, which is not stable. -/
theorem c4_report_amended (rows : List EnrichedRow) (ps : List (Nat × EnrichedRow))
    (h : admissibleOrder rows ps) :
    (reportRows rows ps).Perm rows
    ∧ (reportRows rows ps).Pairwise (fun a b => peLe a.pe b.pe)
    ∧ (reportRows rows ps).filter (fun e => e.pe.isNone) =
        rows.filter (fun e => e.pe.isNone) := by
  obtain ⟨hperm, hsorted⟩ := h
  have hmem_ps : ∀ p ∈ ps, ∃ x, p.2.pe = some x := fun p hp =>
    pe_of_mem_presentPairs (hperm.mem_iff.mp hp)
  have happend : (ps ++ nanPairs rows).Perm rows.enum :=
    (hperm.append_right (nanPairs rows)).trans (present_nan_perm rows)
  have hreport : (reportRows rows ps).Perm rows := by
    have hm := happend.map Prod.snd
    rwa [List.enum_map_snd] at hm
  refine ⟨hreport, ?_, ?_⟩
  · unfold reportRows
    rw [List.pairwise_map, List.pairwise_append]
    refine ⟨?_, ?_, ?_⟩
    · refine List.Pairwise.imp_of_mem ?_ hsorted
      intro a b ha hb hab
      obtain ⟨xa, hxa⟩ := hmem_ps a ha
      obtain ⟨xb, hxb⟩ := hmem_ps b hb
      simp only [boolRel, keyLeB, hxa, hxb, Option.getD_some, decide_eq_true_eq] at hab
      rw [hxa, hxb]
      exact hab
    · refine List.pairwise_of_forall_mem_list ?_
      intro a ha b hb
      rw [pe_of_mem_nanPairs ha, pe_of_mem_nanPairs hb]
      trivial
    · intro a ha b hb
      obtain ⟨xa, hxa⟩ := hmem_ps a ha
      rw [hxa, pe_of_mem_nanPairs hb]
      trivial
  · unfold reportRows
    rw [List.filter_map, List.filter_append]
    have h1 : List.filter ((fun e : EnrichedRow => e.pe.isNone) ∘ Prod.snd) ps = [] := by
      rw [List.filter_eq_nil_iff]
      intro a ha
      obtain ⟨x, hx⟩ := hmem_ps a ha
      simp [Function.comp, hx]
    have h2 : List.filter ((fun e : EnrichedRow => e.pe.isNone) ∘ Prod.snd) (nanPairs rows) =
        nanPairs rows := by
      rw [List.filter_eq_self]
      intro a ha
      simp [Function.comp, pe_of_mem_nanPairs ha]
    rw [h1, h2, List.nil_append]
    unfold nanPairs
    rw [show (fun p : Nat × EnrichedRow => p.2.pe.isNone) =
      ((fun e : EnrichedRow => e.pe.isNone) ∘ Prod.snd) from rfl]
    rw [← List.filter_map, List.enum_map_snd]

/-- 3.1, the first ratio of the spec's sort example. -/
def q31over10 : ℚ := ⟨31, 10, by decide, by decide⟩

def specExampleRows : List EnrichedRow :=
  [⟨"A", some "A", some q31over10⟩, ⟨"B", some "B", none⟩, ⟨"C", some "C", some 1⟩,
   ⟨"D", some "D", none⟩, ⟨"E", some "E", some 2⟩]

def specExampleArr : List (Nat × EnrichedRow) :=
  [(2, ⟨"C", some "C", some 1⟩), (4, ⟨"E", some "E", some 2⟩),
   (0, ⟨"A", some "A", some q31over10⟩)]

theorem c4_report_amended_witness :
    admissibleOrder specExampleRows specExampleArr
    ∧ ((reportRows specExampleRows specExampleArr).Perm specExampleRows
      ∧ (reportRows specExampleRows specExampleArr).Pairwise (fun a b => peLe a.pe b.pe)
      ∧ (reportRows specExampleRows specExampleArr).filter (fun e => e.pe.isNone) =
          specExampleRows.filter (fun e => e.pe.isNone))
    ∧ reportRows specExampleRows specExampleArr =
        [⟨"C", some "C", some 1⟩, ⟨"E", some "E", some 2⟩, ⟨"A", some "A", some q31over10⟩,
         ⟨"B", some "B", none⟩, ⟨"D", some "D", none⟩] :=
  ⟨by decide, c4_report_amended specExampleRows specExampleArr (by decide), by decide⟩

end StockMarket
